import Mathlib

/-!
Shallow embedding of the fslock platform shims (src/unix.rs, src/windows.rs).

The OS calls (lockf, LockFileEx, WaitForSingleObject, malloc, GetLastError,
errno) are external to the program; each shim function is embedded as a pure
function taking the observed outcome of its OS call(s) as explicit arguments
(the return value of the call and the error code the OS would report), and
computing exactly what the Rust code computes from them.  Machine integers
that the code only stores and compares are modelled as Int; u32 arithmetic
that can wrap is taken modulo 2^32 explicitly.
-/

namespace Fslock

namespace Unix

/-- The no-std Error of src/unix.rs: a raw OS status code. -/
structure Error where
  code : Int
deriving DecidableEq

/-- Error::from_raw_os_error (src/unix.rs:36). -/
def Error.from_raw_os_error (c : Int) : Error := ⟨c⟩

/-- Error::last_os_error (src/unix.rs:41): reads errno; the errno value observed
is passed explicitly. -/
def Error.last_os_error (errno : Int) : Error := Error.from_raw_os_error errno

/-- Error::raw_os_error (src/unix.rs:46). -/
def Error.raw_os_error (e : Error) : Option Int := some e.code

/-- libc::EACCES on Linux. -/
def EACCES : Int := 13

/-- libc::EAGAIN on Linux. -/
def EAGAIN : Int := 11

/-- lock (src/unix.rs:290): lockf(fd, F_LOCK, 0) returned res; errno is the
error code the OS reports at that point. -/
def lock (res : Int) (errno : Int) : Except Error Unit :=
  if res = 0 then Except.ok () else Except.error (Error.last_os_error errno)

/-- try_lock (src/unix.rs:300): lockf(fd, F_TLOCK, 0) returned res; errno is
the error code the OS reports at that point. -/
def try_lock (res : Int) (errno : Int) : Except Error Bool :=
  if res = 0 then Except.ok true
  else if errno = EACCES ∨ errno = EAGAIN then Except.ok false
  else Except.error (Error.from_raw_os_error errno)

/-- unlock (src/unix.rs:315): lockf(fd, F_ULOCK, 0) returned res. -/
def unlock (res : Int) (errno : Int) : Except Error Unit :=
  if res = 0 then Except.ok () else Except.error (Error.last_os_error errno)

end Unix

namespace Windows

/-- The no-std Error of src/windows.rs: a raw OS status code. -/
structure Error where
  code : Int
deriving DecidableEq

/-- Error::from_raw_os_error (src/windows.rs:59). -/
def Error.from_raw_os_error (c : Int) : Error := ⟨c⟩

/-- Error::last_os_error (src/windows.rs:64): reads GetLastError; the value
observed is passed explicitly. -/
def Error.last_os_error (lastError : Int) : Error := Error.from_raw_os_error lastError

/-- Error::raw_os_error (src/windows.rs:69). -/
def Error.raw_os_error (e : Error) : Option Int := some e.code

/-- Wrapping u32 subtraction, as Rust release-mode `a - b` on u32. -/
def u32sub (a b : Nat) : Nat := (a % 2 ^ 32 + 2 ^ 32 - b % 2 ^ 32) % 2 ^ 32

/-- char::try_from on a u32: Some for a Unicode scalar value (below 0x110000
and not a surrogate), None when the conversion fails. -/
def charTryFrom (n : Nat) : Option Nat :=
  if n < 0x110000 ∧ ¬(0xD800 ≤ n ∧ n ≤ 0xDFFF) then some n else none

/-- The loop of write_wide_str (src/windows.rs:115-132), carrying the
`suplement` flag, the `prev` unit and the scalars written so far.  The second
component of the result records whether the expect on char::try_from
panicked.  Note the source never resets `suplement` after combining a pair. -/
def write_wide_str_aux : List Nat → Bool → Nat → List Nat → List Nat × Bool
  | [], _, _, acc => (acc, false)
  | code :: rest, suplement, prev, acc =>
    if suplement then
      let high := u32sub prev 0xD800
      let low := u32sub code 0xDC00
      match charTryFrom (((((high <<< 10) % 2 ^ 32) ||| low) + 0x10000) % 2 ^ 32) with
      | some ch => write_wide_str_aux rest suplement prev (acc ++ [ch])
      | none => (acc, true)
    else if code ≤ 0xD7FF ∨ 0xE000 ≤ code then
      match charTryFrom code with
      | some ch => write_wide_str_aux rest suplement prev (acc ++ [ch])
      | none => (acc, true)
    else
      write_wide_str_aux rest true code acc

/-- write_wide_str (src/windows.rs:111): scalars written, and whether the
function panicked. -/
def write_wide_str (string : List Nat) : List Nat × Bool :=
  write_wide_str_aux string false 0 []

/-- winapi ERROR_LOCK_VIOLATION. -/
def ERROR_LOCK_VIOLATION : Int := 33

/-- lock (src/windows.rs:146): lockRes is whether LockFileEx returned TRUE,
waitFailed is whether the subsequent WaitForSingleObject returned WAIT_FAILED,
lastError is the code GetLastError reports on the failing path. -/
def lock (lockRes : Bool) (waitFailed : Bool) (lastError : Int) : Except Error Unit :=
  if lockRes then
    if waitFailed then Except.error (Error.last_os_error lastError)
    else Except.ok ()
  else Except.error (Error.last_os_error lastError)

/-- try_lock (src/windows.rs:178): lockRes is whether LockFileEx (with
LOCKFILE_FAIL_IMMEDIATELY) returned TRUE, waitFailed is whether the subsequent
WaitForSingleObject returned WAIT_FAILED, lastError is the code GetLastError
reports after a failed call. -/
def try_lock (lockRes : Bool) (waitFailed : Bool) (lastError : Int) : Except Error Bool :=
  if lockRes then
    if waitFailed then Except.error (Error.last_os_error lastError)
    else Except.ok true
  else
    if lastError = ERROR_LOCK_VIOLATION then Except.ok false
    else Except.error (Error.from_raw_os_error lastError)

end Windows

namespace Unix

/-- Borrowed OS-native string (src/unix.rs:99): a view of a null-terminated
byte buffer, represented by the bytes of that buffer. -/
abbrev OsStr := List Nat

/-- Owned OS-native string (src/unix.rs:61): an owned allocation, represented
by the bytes it holds. -/
structure OsString where
  bytes : List Nat
deriving DecidableEq

/-- OsString::as_ref (src/unix.rs:72): the borrowed view of the owned buffer. -/
def OsString.as_ref (s : OsString) : OsStr := s.bytes

/-- EitherOsStr (src/unix.rs:155). -/
inductive EitherOsStr where
  | Borrowed (s : OsStr)
  | Owned (s : OsString)
deriving DecidableEq

/-- Outcome of make_os_str: the returned value, an allocation-failure error, or
a panic (the Rust panic on an interior nul byte). -/
inductive MakeOsStrResult where
  | ok (r : EitherOsStr)
  | failed (e : Error)
  | panicked
deriving DecidableEq

/-- make_os_str (src/unix.rs:240).  mallocOk tells whether the malloc of
slice.len() + 1 bytes succeeds; errno is the error code the OS reports if it
fails.  On the borrowed path the input bytes themselves (the same memory) are
returned; on the owned path the allocation holds the copied input plus one
terminating zero. -/
def make_os_str (slice : List Nat) (mallocOk : Bool) (errno : Int) : MakeOsStrResult :=
  match slice.getLast? with
  | some last =>
    if 0 ∈ slice.dropLast then MakeOsStrResult.panicked
    else if last = 0 then MakeOsStrResult.ok (EitherOsStr.Borrowed slice)
    else
      if mallocOk then MakeOsStrResult.ok (EitherOsStr.Owned ⟨slice ++ [0]⟩)
      else MakeOsStrResult.failed (Error.last_os_error errno)
  | none =>
    if mallocOk then MakeOsStrResult.ok (EitherOsStr.Owned ⟨slice ++ [0]⟩)
    else MakeOsStrResult.failed (Error.last_os_error errno)

/-- Modelled from the spec: the OS-side state of the exclusive advisory
whole-file lock on one path — the OS primitive (lockf) itself is not part of
the repository.  Per the glossary and section 5, at most one cooperating
handle holds the advisory lock at a time; handles are identified by their
file descriptors. -/
structure OsLockState where
  holder : Option Nat
deriving DecidableEq

/-- Modelled from the spec: outcome of one lockf call — its return value, the
errno the OS reports, and the lock state afterwards. -/
structure OsCallOutcome where
  res : Int
  errno : Int
  state : OsLockState
deriving DecidableEq

/-- Modelled from the spec: lockf(fd, F_TLOCK, 0) — acquire the exclusive
advisory lock without blocking; contention is reported by the
access/resource-unavailable condition (EACCES). -/
def osAcquire (st : OsLockState) (fd : Nat) : OsCallOutcome :=
  match st.holder with
  | none => ⟨0, 0, ⟨some fd⟩⟩
  | some h => if h = fd then ⟨0, 0, st⟩ else ⟨-1, EACCES, st⟩

/-- Modelled from the spec: lockf(fd, F_LOCK, 0) — the blocking acquire.  In
the scenario proved below it is only invoked on an uncontended file, where it
acquires immediately; the blocking case does not arise. -/
def osAcquireBlocking (st : OsLockState) (fd : Nat) : OsCallOutcome :=
  osAcquire st fd

/-- Modelled from the spec: lockf(fd, F_ULOCK, 0) — release the advisory lock
held by fd. -/
def osRelease (st : OsLockState) (fd : Nat) : OsCallOutcome :=
  ⟨0, 0, if st.holder = some fd then ⟨none⟩ else st⟩

/-- Modelled from the spec: close(fd) releases any advisory lock fd holds. -/
def osClose (st : OsLockState) (fd : Nat) : OsLockState :=
  if st.holder = some fd then ⟨none⟩ else st

/-- lock (src/unix.rs:290) composed with the modelled OS lock state. -/
def sysLock (st : OsLockState) (fd : Nat) : Except Error Unit × OsLockState :=
  let o := osAcquireBlocking st fd
  (lock o.res o.errno, o.state)

/-- try_lock (src/unix.rs:300) composed with the modelled OS lock state. -/
def sysTryLock (st : OsLockState) (fd : Nat) : Except Error Bool × OsLockState :=
  let o := osAcquire st fd
  (try_lock o.res o.errno, o.state)

/-- unlock (src/unix.rs:315) composed with the modelled OS lock state. -/
def sysUnlock (st : OsLockState) (fd : Nat) : Except Error Unit × OsLockState :=
  let o := osRelease st fd
  (unlock o.res o.errno, o.state)

/-- Whether a byte is a UTF-8 continuation byte (0x80..0xBF). -/
def isCont (b : Nat) : Bool := 0x80 ≤ b ∧ b ≤ 0xBF

/-- Length (1 to 4) of the complete, well-formed UTF-8 sequence at the front
of the list, per the validation table of Rust's str::from_utf8 (no overlong
forms, no surrogates, nothing above 0x10FFFF); none when the front is not a
complete well-formed sequence. -/
def utf8SeqLen (l : List Nat) : Option Nat :=
  match l with
  | [] => none
  | b0 :: rest =>
    let n := rest.length
    let b1 := rest.getD 0 0
    let b2 := rest.getD 1 0
    let b3 := rest.getD 2 0
    if b0 < 0x80 then some 1
    else if 0xC2 ≤ b0 ∧ b0 ≤ 0xDF then
      if 1 ≤ n ∧ isCont b1 then some 2 else none
    else if b0 = 0xE0 then
      if 2 ≤ n ∧ (0xA0 ≤ b1 ∧ b1 ≤ 0xBF) ∧ isCont b2 then some 3 else none
    else if (0xE1 ≤ b0 ∧ b0 ≤ 0xEC) ∨ (0xEE ≤ b0 ∧ b0 ≤ 0xEF) then
      if 2 ≤ n ∧ isCont b1 ∧ isCont b2 then some 3 else none
    else if b0 = 0xED then
      if 2 ≤ n ∧ (0x80 ≤ b1 ∧ b1 ≤ 0x9F) ∧ isCont b2 then some 3 else none
    else if b0 = 0xF0 then
      if 3 ≤ n ∧ (0x90 ≤ b1 ∧ b1 ≤ 0xBF) ∧ isCont b2 ∧ isCont b3 then some 4 else none
    else if 0xF1 ≤ b0 ∧ b0 ≤ 0xF3 then
      if 3 ≤ n ∧ isCont b1 ∧ isCont b2 ∧ isCont b3 then some 4 else none
    else if b0 = 0xF4 then
      if 3 ≤ n ∧ (0x80 ≤ b1 ∧ b1 ≤ 0x8F) ∧ isCont b2 ∧ isCont b3 then some 4 else none
    else none

/-- A recognized front sequence is nonempty and fits in the list. -/
theorem utf8SeqLen_spec (l : List Nat) (k : Nat) (h : utf8SeqLen l = some k) :
    0 < k ∧ k ≤ l.length := by
  cases l with
  | nil => simp [utf8SeqLen] at h
  | cons b0 rest =>
    simp only [utf8SeqLen] at h
    split_ifs at h <;> simp_all <;> omega

/-- Iterated front-sequence recognition, with an explicit iteration budget;
each recognized sequence is at least one byte, so a budget of the list length
is always enough. -/
def utf8ValidUpToAux : Nat → List Nat → Nat
  | 0, _ => 0
  | fuel + 1, l =>
    match utf8SeqLen l with
    | some k => k + utf8ValidUpToAux fuel (l.drop k)
    | none => 0

/-- The index up to which a byte list is valid UTF-8 — the valid_up_to() of
Rust's str::from_utf8: the length of the longest run of complete, well-formed
UTF-8 sequences starting at the front. -/
def utf8ValidUpTo (l : List Nat) : Nat := utf8ValidUpToAux l.length l

/-- Any sufficient iteration budget computes utf8ValidUpTo, so the budget in
utf8ValidUpTo is not a cutoff. -/
theorem utf8ValidUpToAux_eq (fuel : Nat) :
    ∀ l : List Nat, l.length ≤ fuel → utf8ValidUpToAux fuel l = utf8ValidUpTo l := by
  induction fuel using Nat.strong_induction_on with
  | _ fuel ih =>
    intro l hl
    match fuel with
    | 0 =>
      have : l = [] := List.length_eq_zero.mp (Nat.le_zero.mp hl)
      subst this
      rfl
    | m + 1 =>
      unfold utf8ValidUpTo
      match hlen : l.length with
      | 0 =>
        have : l = [] := List.length_eq_zero.mp hlen
        subst this
        simp [utf8ValidUpToAux, utf8SeqLen]
      | j + 1 =>
        simp only [utf8ValidUpToAux]
        match hs : utf8SeqLen l with
        | none => rfl
        | some k =>
          obtain ⟨hk1, hk2⟩ := utf8SeqLen_spec l k hs
          have hdrop : (l.drop k).length = l.length - k := List.length_drop k l
          have h1 : utf8ValidUpToAux m (l.drop k) = utf8ValidUpTo (l.drop k) := by
            apply ih m (by omega) _ (by omega)
          have h2 : utf8ValidUpToAux j (l.drop k) = utf8ValidUpTo (l.drop k) := by
            apply ih j (by omega) _ (by omega)
          show k + utf8ValidUpToAux m (l.drop k) = k + utf8ValidUpToAux j (l.drop k)
          rw [h1, h2]

/-- The recurrence utf8ValidUpTo satisfies: add the front sequence length and
continue past it, or stop at the first invalid position. -/
theorem utf8ValidUpTo_step (l : List Nat) :
    utf8ValidUpTo l =
      match utf8SeqLen l with
      | some k => k + utf8ValidUpTo (l.drop k)
      | none => 0 := by
  match hs : utf8SeqLen l with
  | none =>
    unfold utf8ValidUpTo
    match hlen : l.length with
    | 0 => rfl
    | j + 1 => simp [utf8ValidUpToAux, hs]
  | some k =>
    obtain ⟨hk1, hk2⟩ := utf8SeqLen_spec l k hs
    unfold utf8ValidUpTo
    match hlen : l.length with
    | 0 => omega
    | j + 1 =>
      simp only [utf8ValidUpToAux, hs]
      congr 1
      rw [utf8ValidUpToAux_eq j _ (by simp [List.length_drop]; omega)]
      rfl

/-- One item written by the Display loop of src/unix.rs:125: a chunk of valid
UTF-8 bytes, or one replacement marker. -/
inductive DispItem where
  | chunk (bytes : List Nat)
  | rep
deriving DecidableEq

/-- The Display loop of src/unix.rs:133-147: while the remaining slice is
nonempty, write it whole if it is valid UTF-8; otherwise write the valid
slice up to valid_up_to(), one replacement marker, and continue from
valid_up_to() + 1. -/
def displayLoop (sub : List Nat) : List DispItem :=
  if sub.length = 0 then []
  else if utf8ValidUpTo sub = sub.length then [DispItem.chunk sub]
  else
    DispItem.chunk (sub.take (utf8ValidUpTo sub)) :: DispItem.rep ::
      displayLoop (sub.drop (utf8ValidUpTo sub + 1))
termination_by sub.length
decreasing_by
  simp only [List.length_drop]
  omega

/-- Display for OsStr (src/unix.rs:125): the loop is run on the bytes up to
the first nul (the strlen of the buffer). -/
def displayOsStr (buf : List Nat) : List DispItem :=
  displayLoop (buf.takeWhile (fun b => b ≠ 0))

/-- Number of replacement markers in a Display output. -/
def countRep : List DispItem → Nat
  | [] => 0
  | DispItem.rep :: rest => countRep rest + 1
  | DispItem.chunk _ :: rest => countRep rest

/-- The Debug loop of src/unix.rs:103-123, one observed byte at a time: the
loop condition dereferences a pointer that the body never advances, so the
observed byte is the first byte of the buffer on every iteration.  The fuel
argument bounds the number of iterations; none means the loop was still
running when the fuel ran out. -/
def debugFmtAux (fuel : Nat) (firstByte : Nat) (acc : List Nat) : Option (List Nat) :=
  match fuel with
  | 0 => none
  | f + 1 =>
    if firstByte = 0 then some acc
    else debugFmtAux f firstByte (acc ++ [firstByte])

/-- Debug for OsStr (src/unix.rs:103) on a null-terminated buffer, run for a
given number of loop iterations. -/
def debugFmt (fuel : Nat) (buf : List Nat) : Option (List Nat) :=
  debugFmtAux fuel (buf.headD 0) []

/-- ToOsStr for OsStr (src/unix.rs:219). -/
def OsStr.to_os_str (s : OsStr) : Except Error EitherOsStr :=
  Except.ok (EitherOsStr.Borrowed s)

/-- ToOsStr for OsString (src/unix.rs:225). -/
def OsString.to_os_str (s : OsString) : Except Error EitherOsStr :=
  Except.ok (EitherOsStr.Borrowed s.as_ref)

/-- IntoOsString for OsString (src/unix.rs:169). -/
def OsString.into_os_string (s : OsString) : Except Error OsString :=
  Except.ok s

end Unix

end Fslock

namespace Fslock

/-- C1: try_lock returns true exactly on successful acquisition (on the
code-unit platform the completion wait must also not fail), returns false —
not an error — exactly when the OS reports the platform contention signal
(EACCES or EAGAIN on unix; ERROR_LOCK_VIOLATION on windows), and returns an
error carrying the last OS status code on any other OS failure. -/
theorem try_lock_contention_spec (res errno : Int) (lockRes waitFailed : Bool)
    (lastError : Int) :
    (Unix.try_lock res errno = Except.ok true ↔ res = 0) ∧
    (Unix.try_lock res errno = Except.ok false ↔
      (res ≠ 0 ∧ (errno = Unix.EACCES ∨ errno = Unix.EAGAIN))) ∧
    (res ≠ 0 → ¬(errno = Unix.EACCES ∨ errno = Unix.EAGAIN) →
      Unix.try_lock res errno =
        Except.error (Unix.Error.from_raw_os_error errno)) ∧
    (Windows.try_lock lockRes waitFailed lastError = Except.ok true ↔
      (lockRes = true ∧ waitFailed = false)) ∧
    (Windows.try_lock lockRes waitFailed lastError = Except.ok false ↔
      (lockRes = false ∧ lastError = Windows.ERROR_LOCK_VIOLATION)) ∧
    (lockRes = false → lastError ≠ Windows.ERROR_LOCK_VIOLATION →
      Windows.try_lock lockRes waitFailed lastError =
        Except.error (Windows.Error.from_raw_os_error lastError)) := by
  unfold Unix.try_lock Windows.try_lock
  refine ⟨?_, ?_, ?_, ?_, ?_, ?_⟩ <;>
    cases lockRes <;> cases waitFailed <;> split_ifs <;>
      simp_all [Unix.Error.from_raw_os_error, Windows.Error.from_raw_os_error,
        Windows.Error.last_os_error]

/-- Witness for try_lock_contention_spec at concrete OS outcomes. -/
theorem try_lock_contention_spec_witness :
    (1 : Int) ≠ 0 ∧ ¬((7 : Int) = Unix.EACCES ∨ (7 : Int) = Unix.EAGAIN) ∧
    Unix.try_lock 1 7 = Except.error (Unix.Error.from_raw_os_error 7) := by
  refine ⟨by decide, by decide, ?_⟩
  exact (try_lock_contention_spec 1 7 false false 7).2.2.1 (by decide) (by decide)

/-- C2: the blocking lock returns success with no payload exactly when the OS
primitive reports the exclusive lock acquired (on the code-unit platform the
completion wait must also not fail), and otherwise returns an OS error built
from the last OS status code; the return type admits no contention outcome. -/
theorem lock_blocking_spec (res errno : Int) (lockRes waitFailed : Bool)
    (lastError : Int) :
    (Unix.lock res errno = Except.ok () ↔ res = 0) ∧
    (res ≠ 0 → Unix.lock res errno = Except.error (Unix.Error.last_os_error errno)) ∧
    (Windows.lock lockRes waitFailed lastError = Except.ok () ↔
      (lockRes = true ∧ waitFailed = false)) ∧
    (¬(lockRes = true ∧ waitFailed = false) →
      Windows.lock lockRes waitFailed lastError =
        Except.error (Windows.Error.last_os_error lastError)) := by
  unfold Unix.lock Windows.lock
  refine ⟨?_, ?_, ?_, ?_⟩ <;>
    cases lockRes <;> cases waitFailed <;> split_ifs <;> simp_all

/-- Witness for lock_blocking_spec at concrete OS outcomes. -/
theorem lock_blocking_spec_witness :
    ((1 : Int) ≠ 0 → Unix.lock 1 5 = Except.error (Unix.Error.last_os_error 5)) ∧
    Unix.lock 0 0 = Except.ok () := by
  refine ⟨(lock_blocking_spec 1 5 true false 0).2.1, ?_⟩
  exact (lock_blocking_spec 0 0 true false 0).1.mpr rfl

/-- C9: constructing an error from an explicit status code and reading back its
raw code yields Some of the same code, on both platform backends. -/
theorem error_code_roundtrip (c : Int) :
    (Unix.Error.from_raw_os_error c).raw_os_error = some c ∧
    (Windows.Error.from_raw_os_error c).raw_os_error = some c :=
  ⟨rfl, rfl⟩

/-- C3: an input ending in exactly one trailing zero byte with no zero byte
before it converts to a Borrowed view of the very same bytes (no allocation);
an input with no zero byte at all converts, when the allocation succeeds, to
an Owned buffer of exactly len+1 bytes holding the input unchanged followed by
one terminating zero, so its length before the terminator equals the input
length. -/
theorem make_os_str_spec (slice : List Nat) (mallocOk : Bool) (errno : Int) :
    (slice.getLast? = some 0 → 0 ∉ slice.dropLast →
      Unix.make_os_str slice mallocOk errno =
        Unix.MakeOsStrResult.ok (Unix.EitherOsStr.Borrowed slice)) ∧
    (0 ∉ slice →
      Unix.make_os_str slice true errno =
        Unix.MakeOsStrResult.ok (Unix.EitherOsStr.Owned ⟨slice ++ [0]⟩) ∧
      (slice ++ [0]).length = slice.length + 1 ∧
      (slice ++ [0]).dropLast = slice) := by
  constructor
  · intro hlast hinit
    simp [Unix.make_os_str, hlast, hinit]
  · intro hno
    have hinit : 0 ∉ slice.dropLast := fun h => hno (List.dropLast_subset slice h)
    refine ⟨?_, by simp, by simp⟩
    match hs : slice.getLast? with
    | some last =>
      have hlastmem : last ∈ slice := by
        obtain ⟨hne, heq⟩ := List.mem_getLast?_eq_getLast (l := slice) (x := last) hs
        exact heq ▸ List.getLast_mem hne
      have hlast0 : last ≠ 0 := fun h => hno (h ▸ hlastmem)
      simp [Unix.make_os_str, hs, hinit, hlast0]
    | none =>
      simp [Unix.make_os_str, hs]

/-- Witness for make_os_str_spec: the borrowed path on "h\0" and the owned
path on "h". -/
theorem make_os_str_spec_witness :
    Unix.make_os_str [104, 0] true 0 =
      Unix.MakeOsStrResult.ok (Unix.EitherOsStr.Borrowed [104, 0]) ∧
    Unix.make_os_str [104] true 0 =
      Unix.MakeOsStrResult.ok (Unix.EitherOsStr.Owned ⟨[104, 0]⟩) :=
  ⟨(make_os_str_spec [104, 0] true 0).1 (by decide) (by decide),
   ((make_os_str_spec [104] true 0).2 (by decide)).1⟩

/-- C4: any input holding a zero byte strictly before its final position makes
the conversion panic on every call — never a truncated or repaired value, and
never a recoverable error value. -/
theorem make_os_str_interior_nul_panics (slice : List Nat) (mallocOk : Bool)
    (errno : Int) (h : 0 ∈ slice.dropLast) :
    Unix.make_os_str slice mallocOk errno = Unix.MakeOsStrResult.panicked := by
  match hs : slice.getLast? with
  | some last => simp [Unix.make_os_str, hs, h]
  | none =>
    rw [List.getLast?_eq_none_iff] at hs
    subst hs
    simp at h

/-- Witness for make_os_str_interior_nul_panics on the input "\0a". -/
theorem make_os_str_interior_nul_panics_witness :
    Unix.make_os_str [0, 97] true 0 = Unix.MakeOsStrResult.panicked :=
  make_os_str_interior_nul_panics [0, 97] true 0 (by decide)

/-- C10: converting an already-native string is the identity and never fails:
to_os_str on a borrowed or owned native string returns Ok with a Borrowed
view of the same bytes, and into_os_string on an owned native string returns
Ok with that same owned value. -/
theorem to_os_str_identity (s : Unix.OsStr) (os : Unix.OsString) :
    Unix.OsStr.to_os_str s = Except.ok (Unix.EitherOsStr.Borrowed s) ∧
    Unix.OsString.to_os_str os = Except.ok (Unix.EitherOsStr.Borrowed os.as_ref) ∧
    Unix.OsString.into_os_string os = Except.ok os :=
  ⟨rfl, rfl, rfl⟩

/-- C5: on one path, with the OS advisory-lock semantics modelled from the
spec: handle a's blocking lock succeeds from the free state; handle b's
try_lock while a holds the lock returns false, not an error; and after a
unlocks and then closes, b's try_lock returns true. -/
theorem lock_exclusion_scenario (a b : Nat) (hab : a ≠ b) :
    (Unix.sysLock ⟨none⟩ a).1 = Except.ok () ∧
    (Unix.sysTryLock (Unix.sysLock ⟨none⟩ a).2 b).1 = Except.ok false ∧
    (Unix.sysUnlock (Unix.sysLock ⟨none⟩ a).2 a).1 = Except.ok () ∧
    (Unix.sysTryLock
      (Unix.osClose (Unix.sysUnlock (Unix.sysLock ⟨none⟩ a).2 a).2 a) b).1 =
      Except.ok true := by
  have hba : ¬(a = b) := hab
  simp [Unix.sysLock, Unix.sysTryLock, Unix.sysUnlock, Unix.osAcquireBlocking,
    Unix.osAcquire, Unix.osRelease, Unix.osClose, Unix.lock, Unix.try_lock,
    Unix.unlock, Unix.EACCES, Unix.EAGAIN, hba]

/-- Witness for lock_exclusion_scenario with descriptors 3 and 4. -/
theorem lock_exclusion_scenario_witness :
    (Unix.sysTryLock (Unix.sysLock ⟨none⟩ 3).2 4).1 = Except.ok false :=
  (lock_exclusion_scenario 3 4 (by decide)).2.1

/-- A byte 0xFF can head no valid UTF-8 sequence. -/
theorem utf8ValidUpTo_ff (rest : List Nat) : Unix.utf8ValidUpTo (255 :: rest) = 0 := by
  simp [Unix.utf8ValidUpTo, Unix.utf8ValidUpToAux, Unix.utf8SeqLen]

/-- Unfolding of the Display loop at a leading 0xFF byte. -/
theorem displayLoop_cons_ff (rest : List Nat) :
    Unix.displayLoop (255 :: rest) =
      Unix.DispItem.chunk [] :: Unix.DispItem.rep :: Unix.displayLoop rest := by
  rw [Unix.displayLoop]
  simp [utf8ValidUpTo_ff]

/-- The Display loop on the empty slice. -/
theorem displayLoop_nil : Unix.displayLoop [] = [] := by
  rw [Unix.displayLoop]
  simp

/-- C6 counterexample: the two-byte invalid run 0xFF 0xFF (a single maximal
invalid run, whose longest valid UTF-8 prefix is empty) is displayed with two
replacement markers, not the single marker the claim requires. -/
theorem display_single_marker_refuted :
    Unix.countRep (Unix.displayOsStr [255, 255, 0]) = 2 ∧
    Unix.countRep (Unix.displayOsStr [255, 255, 0]) ≠ 1 := by
  have h : Unix.displayOsStr [255, 255, 0] = Unix.displayLoop [255, 255] := rfl
  rw [h, displayLoop_cons_ff, displayLoop_cons_ff, displayLoop_nil]
  simp [Unix.countRep]

/-- C6 amended: on a decode failure the Display loop emits the longest valid
UTF-8 prefix, then exactly one replacement marker, then resumes from the
single byte following that prefix — so an invalid run of k bytes yields k
replacement markers, one per skipped byte, not one per run. -/
theorem display_greedy_resync :
    (∀ sub : List Nat, Unix.utf8ValidUpTo sub < sub.length →
      Unix.displayLoop sub =
        Unix.DispItem.chunk (sub.take (Unix.utf8ValidUpTo sub)) ::
          Unix.DispItem.rep ::
            Unix.displayLoop (sub.drop (Unix.utf8ValidUpTo sub + 1))) ∧
    (∀ k : Nat, Unix.countRep (Unix.displayLoop (List.replicate k 255)) = k) := by
  constructor
  · intro sub h
    rw [Unix.displayLoop]
    have h0 : ¬sub.length = 0 := by omega
    have h1 : ¬Unix.utf8ValidUpTo sub = sub.length := by omega
    simp [h0, h1]
  · intro k
    induction k with
    | zero => simp [List.replicate, displayLoop_nil, Unix.countRep]
    | succ n ih =>
      rw [List.replicate_succ, displayLoop_cons_ff]
      simp [Unix.countRep, ih]

/-- Witness for display_greedy_resync on the slice "A" ++ 0xFF ++ "B". -/
theorem display_greedy_resync_witness :
    Unix.displayLoop [65, 255, 66] =
      Unix.DispItem.chunk [65] :: Unix.DispItem.rep :: Unix.displayLoop [66] := by
  have h := display_greedy_resync.1 [65, 255, 66] (by decide)
  simpa using h

/-- The Debug loop never terminates once it observes a nonzero first byte,
whatever the iteration budget. -/
theorem debugFmtAux_stuck (fuel : Nat) (b : Nat) (hb : b ≠ 0) :
    ∀ acc, Unix.debugFmtAux fuel b acc = none := by
  induction fuel with
  | zero => intro acc; rfl
  | succ n ih => intro acc; simp [Unix.debugFmtAux, hb, ih]

/-- C8: Debug-formatting the one-character string "a" (buffer bytes 97, 0)
never finishes: the loop pointer is never advanced, so the loop body runs
forever, contradicting the claimed termination with a finite output. -/
theorem debug_fmt_diverges (fuel : Nat) : Unix.debugFmt fuel [97, 0] = none := by
  have h : Unix.debugFmt fuel [97, 0] = Unix.debugFmtAux fuel 97 [] := rfl
  rw [h]
  exact debugFmtAux_stuck fuel 97 (by decide) []

/-- C7: on the well-formed unit sequence high-surrogate 0xD800, low-surrogate
0xDC00, then the plain unit 0x41, the decoder emits 0x10000 for the pair but
then — because the pair flag is never cleared — combines 0x41 with the stale
high surrogate and emits 0x2441 instead of 0x41. -/
theorem write_wide_str_stale_surrogate_bug :
    Windows.write_wide_str [0xD800, 0xDC00, 0x41] = ([0x10000, 0x2441], false) ∧
    Windows.write_wide_str [0xD800, 0xDC00, 0x41] ≠ ([0x10000, 0x41], false) := by
  constructor
  · rfl
  · decide

end Fslock
